import Mathlib

/-!
Shallow embedding of the TF-IDF movie recommender (`src/main.py`).

The core of the service is the similarity recommender built from three
artifacts loaded at startup: a corpus table `df` (we only need its `title`
column), a dictionary `TITLE_TO_IDX` from normalized title to row index,
and a TF-IDF feature matrix whose row `i` is the vector of corpus row `i`.

Modelling choices:
* Python strings are lists of Unicode code points (`List Nat`); `str.strip()`
  and `str.lower()` are embedded character-by-character.
* Python `dict` is an association list with insert-or-overwrite semantics,
  built in iteration order, which reproduces dict-comprehension behaviour
  (later duplicate keys overwrite earlier ones).
* Matrix entries (TF-IDF weights, hence similarity scores) are rationals;
  the claims under study concern control flow and ordering, not rounding.
* `np.argsort` is embedded as an insertion-sort argsort. For arrays of at
  most 16 elements this is exactly what numpy's default introsort executes
  (its small-array insertion-sort path); for longer arrays numpy guarantees
  only that the returned indices sort the array, with implementation-defined
  tie order, and every theorem below that quantifies over arbitrary states
  relies only on that sorted-permutation contract (specifically: on the
  output being a permutation of the row indices).
-/

/-- Python strings modelled as lists of Unicode code points. -/
abbrev Str := List Nat

/-- One character of Python `str.lower()` (ASCII case mapping, the only one
exercised by the corpus titles): `A`–`Z` map to `a`–`z`. -/
def pyLowerChar (c : Nat) : Nat := if 65 ≤ c ∧ c ≤ 90 then c + 32 else c

/-- Python `str.lower()`. -/
def pyLower (s : Str) : Str := s.map pyLowerChar

/-- The whitespace test of Python `str.strip()` (the code points for which
`str.isspace()` holds: ASCII whitespace, the C1 separators, NEL, NBSP and
the Unicode space separators and line/paragraph separators). -/
def isSpaceChar (c : Nat) : Bool :=
  decide (c = 32 ∨ c = 9 ∨ c = 10 ∨ c = 11 ∨ c = 12 ∨ c = 13 ∨
    c = 28 ∨ c = 29 ∨ c = 30 ∨ c = 31 ∨ c = 133 ∨ c = 160 ∨ c = 5760 ∨
    (8192 ≤ c ∧ c ≤ 8202) ∨ c = 8232 ∨ c = 8233 ∨ c = 8239 ∨ c = 8287 ∨
    c = 12288)

/-- Python `str.strip()`: drop leading and trailing whitespace. -/
def pyStrip (s : Str) : Str :=
  ((s.dropWhile isSpaceChar).reverse.dropWhile isSpaceChar).reverse

/-- Embedding of `_norm_title` (src/main.py lines 74–75): `str(t).strip().lower()`. -/
def norm_title (t : Str) : Str := pyLower (pyStrip t)

/-- Lookup in a Python dict modelled as an association list
(`d.get(k)`, returning `none` when the key is absent). -/
def dictLookup (d : List (Str × Nat)) (k : Str) : Option Nat :=
  match d with
  | [] => none
  | (k', v) :: rest => if k' = k then some v else dictLookup rest k

/-- Insertion into a Python dict: overwrite the value if the key is present,
append otherwise. -/
def dictInsert (d : List (Str × Nat)) (k : Str) (v : Nat) : List (Str × Nat) :=
  match d with
  | [] => [(k, v)]
  | (k', v') :: rest =>
    if k' = k then (k, v) :: rest else (k', v') :: dictInsert rest k v

/-- Embedding of `build_title_map(indices)` (src/main.py lines 119–120):
`{_norm_title(k): int(v) for k, v in indices.items()}` — a dict
comprehension over the items in iteration order, so entries whose keys
collide after normalization silently overwrite earlier ones. -/
def build_title_map (indices : List (Str × Nat)) : List (Str × Nat) :=
  indices.foldl (fun d kv => dictInsert d (norm_title kv.1) kv.2) []

/-- Dot product of two feature vectors
(one entry of `tfidf_matrix @ tfidf_matrix[idx].T`). -/
def dot (u v : List ℚ) : ℚ := (List.zipWith (fun a b => a * b) u v).sum

/-- Row `i` of the feature matrix (`tfidf_matrix[i]`). -/
def rowAt (m : List (List ℚ)) (i : Nat) : List ℚ := m.getD i []

/-- Embedding of `(tfidf_matrix @ tfidf_matrix[idx].T).toarray().ravel()`:
the vector of similarity scores of every row against row `idx`. -/
def simScores (m : List (List ℚ)) (idx : Nat) : List ℚ :=
  m.map (fun r => dot r (rowAt m idx))

/-- Insert index `i` into an index list kept sorted by ascending key,
placing `i` after existing indices with an equal key (the strict `<`
comparison of the insertion sort inside numpy's argsort). -/
def insertIdx (key : Nat → ℚ) (i : Nat) : List Nat → List Nat
  | [] => [i]
  | j :: rest => if key i < key j then i :: j :: rest else j :: insertIdx key i rest

/-- Embedding of `np.argsort(v)`: indices `0, …, len v - 1` arranged so that `v` read at
those indices is ascending. See the module docstring for the fidelity of
this model to numpy's default introsort. -/
def np_argsort (v : List ℚ) : List Nat :=
  (List.range v.length).foldl (fun acc i => insertIdx (fun j => v.getD j 0) i acc) []

/-- The loaded global state of the service: `df` (its `title` column, by
row), `TITLE_TO_IDX`, and `tfidf_matrix`. -/
structure State where
  df_titles : List Str
  title_to_idx : List (Str × Nat)
  tfidf_matrix : List (List ℚ)
deriving DecidableEq

/-- The `for i in order` loop of `tfidf_recommend_titles` (src/main.py lines
131–136): skip the query row, append `(df.iloc[i]["title"], float(scores[i]))`,
and stop as soon as `len(out) >= top_n`.  Out-of-range reads (which can only
arise from a malformed state) are modelled with defaults. -/
def recLoop (S : State) (idx : Nat) (sc : List ℚ) (top_n : Int) :
    List Nat → List (Str × ℚ) → List (Str × ℚ)
  | [], out => out
  | i :: rest, out =>
    if i = idx then recLoop S idx sc top_n rest out
    else
      let out' := out ++ [(S.df_titles.getD i [], sc.getD i 0)]
      if (out'.length : Int) ≥ top_n then out'
      else recLoop S idx sc top_n rest out'

/-- Embedding of `tfidf_recommend_titles(title, top_n)` (src/main.py lines 123–137). -/
def tfidf_recommend_titles (S : State) (title : Str) (top_n : Int) :
    List (Str × ℚ) :=
  match dictLookup S.title_to_idx (norm_title title) with
  | none => []
  | some idx =>
    let sc := simScores S.tfidf_matrix idx
    let order := np_argsort (sc.map (fun x => -x))
    recLoop S idx sc top_n order []

/-- The route handler `recommend_tfidf` (src/main.py lines 219–221): it
forwards `title` and `top_n` to `tfidf_recommend_titles` unvalidated and
re-packages each pair as a JSON object. -/
def recommend_tfidf (S : State) (title : Str) (top_n : Int) : List (Str × ℚ) :=
  (tfidf_recommend_titles S title top_n).map (fun p => (p.1, p.2))

/-- One invocation of the recommender as the service executes it: it reads
the loaded globals and writes none of them, so with state passing made
explicit it returns the result together with the untouched state. -/
def recommend_call (S : State) (title : Str) (top_n : Int) :
    List (Str × ℚ) × State :=
  (tfidf_recommend_titles S title top_n, S)

/-- The three pickled artifacts read by `lifespan`. -/
structure Artifacts where
  df_pkl : List Str
  indices_pkl : List (Str × Nat)
  tfidf_matrix_pkl : List (List ℚ)

/-- The startup path of `lifespan` (src/main.py lines 155–165): load the
three pickles, build the title map, install everything as global state and
yield.  The body contains no validation and no failure path, so the
embedding always returns `Except.ok`. -/
def lifespan_load (a : Artifacts) : Except String State :=
  Except.ok
    { df_titles := a.df_pkl
      title_to_idx := build_title_map a.indices_pkl
      tfidf_matrix := a.tfidf_matrix_pkl }

/-! ### Concrete fixture states used by counterexamples and witnesses -/

/-- Title `"a"`. -/
def tA : Str := [97]

/-- Title `"b"`. -/
def tB : Str := [98]

/-- Title `"c"`. -/
def tC : Str := [99]

/-- A three-row state with distinct titles `"a"`, `"b"`, `"c"` and feature
rows `[1,0]`, `[0,1]`, `[1,1]`. -/
def S3 : State :=
  { df_titles := [tA, tB, tC]
    title_to_idx := build_title_map [(tA, 0), (tB, 1), (tC, 2)]
    tfidf_matrix := [[1, 0], [0, 1], [1, 1]] }

/-- A two-row state whose rows carry the same title `"a"` (a duplicate
title in the corpus); the title map, built last-write-wins, sends `"a"`
to row 1. -/
def Sdup : State :=
  { df_titles := [tA, tA]
    title_to_idx := build_title_map [(tA, 0), (tA, 1)]
    tfidf_matrix := [[1], [1]] }

/-- Mismatched startup artifacts: three corpus rows but only two feature
rows (the shape-mismatch scenario of the spec). -/
def mismatchArtifacts : Artifacts :=
  { df_pkl := [tA, tB, tC]
    indices_pkl := [(tA, 0), (tB, 1), (tC, 2)]
    tfidf_matrix_pkl := [[1, 0], [0, 1]] }


/-! ### Normalization: `_norm_title` is idempotent -/

theorem pyLowerChar_idem (c : Nat) : pyLowerChar (pyLowerChar c) = pyLowerChar c := by
  simp only [pyLowerChar]
  by_cases h : 65 ≤ c ∧ c ≤ 90
  · rw [if_pos h, if_neg (by omega : ¬(65 ≤ c + 32 ∧ c + 32 ≤ 90))]
  · rw [if_neg h, if_neg h]

theorem isSpaceChar_pyLowerChar (c : Nat) :
    isSpaceChar (pyLowerChar c) = isSpaceChar c := by
  by_cases h : 65 ≤ c ∧ c ≤ 90
  · simp only [pyLowerChar, if_pos h, isSpaceChar]
    exact decide_eq_decide.mpr (by omega)
  · simp only [pyLowerChar, if_neg h]

theorem pyLower_idem (s : Str) : pyLower (pyLower s) = pyLower s := by
  induction s with
  | nil => rfl
  | cons a l ih =>
    simp only [pyLower, List.map_cons] at ih ⊢
    rw [pyLowerChar_idem, ih]

theorem dropWhile_dropWhile_same {α : Type} (p : α → Bool) (l : List α) :
    (l.dropWhile p).dropWhile p = l.dropWhile p := by
  induction l with
  | nil => rfl
  | cons a l ih =>
    by_cases h : p a
    · simp [List.dropWhile_cons, h, ih]
    · simp [List.dropWhile_cons, h]

theorem head?_dropWhile_not {α : Type} (p : α → Bool) (l : List α) :
    ∀ a ∈ (l.dropWhile p).head?, p a = false := by
  induction l with
  | nil => intro a h; simp at h
  | cons x l ih =>
    intro a h
    by_cases hx : p x
    · rw [List.dropWhile_cons, if_pos hx] at h
      exact ih a h
    · rw [List.dropWhile_cons, if_neg hx] at h
      simp only [List.head?_cons, Option.mem_def, Option.some.injEq] at h
      subst h
      simpa using hx

theorem dropWhile_eq_append {α : Type} (p : α → Bool) (l : List α) :
    ∃ t, l = t ++ l.dropWhile p := by
  induction l with
  | nil => exact ⟨[], rfl⟩
  | cons a l ih =>
    by_cases h : p a
    · obtain ⟨t, ht⟩ := ih
      refine ⟨a :: t, ?_⟩
      rw [List.dropWhile_cons, if_pos h, List.cons_append]
      exact congrArg _ ht
    · exact ⟨[], by rw [List.dropWhile_cons, if_neg h, List.nil_append]⟩

theorem getLast?_dropWhile {α : Type} (p : α → Bool) (l : List α)
    (h : l.dropWhile p ≠ []) : (l.dropWhile p).getLast? = l.getLast? := by
  obtain ⟨t, ht⟩ := dropWhile_eq_append p l
  conv_rhs => rw [ht]
  exact (List.getLast?_append_of_ne_nil t h).symm

theorem pyStrip_head (s : Str) :
    ∀ a ∈ (pyStrip s).head?, isSpaceChar a = false := by
  intro a ha
  rw [pyStrip, List.head?_reverse] at ha
  rcases eq_or_ne (((s.dropWhile isSpaceChar).reverse).dropWhile isSpaceChar) [] with h | h
  · rw [h] at ha
    simp at ha
  · rw [getLast?_dropWhile _ _ h, List.getLast?_reverse] at ha
    exact head?_dropWhile_not isSpaceChar s a ha

theorem pyStrip_last (s : Str) :
    ∀ a ∈ (pyStrip s).getLast?, isSpaceChar a = false := by
  intro a ha
  rw [pyStrip, List.getLast?_reverse] at ha
  exact head?_dropWhile_not isSpaceChar (s.dropWhile isSpaceChar).reverse a ha

theorem dropWhile_eq_self_of_head {α : Type} (p : α → Bool) (l : List α)
    (h : ∀ a ∈ l.head?, p a = false) : l.dropWhile p = l := by
  cases l with
  | nil => rfl
  | cons a l =>
    have ha : p a = false := h a (by simp)
    simp [List.dropWhile_cons, ha]

theorem pyStrip_of_clean (s : Str)
    (h1 : ∀ a ∈ s.head?, isSpaceChar a = false)
    (h2 : ∀ a ∈ s.getLast?, isSpaceChar a = false) : pyStrip s = s := by
  rw [pyStrip, dropWhile_eq_self_of_head _ _ h1,
    dropWhile_eq_self_of_head _ _ (by rw [List.head?_reverse]; exact h2)]
  exact List.reverse_reverse s

theorem pyStrip_idem (s : Str) : pyStrip (pyStrip s) = pyStrip s :=
  pyStrip_of_clean _ (pyStrip_head s) (pyStrip_last s)

theorem dropWhile_pyLower (s : Str) :
    (pyLower s).dropWhile isSpaceChar = pyLower (s.dropWhile isSpaceChar) := by
  rw [pyLower, List.dropWhile_map]
  have hcomp : (isSpaceChar ∘ pyLowerChar) = isSpaceChar :=
    funext isSpaceChar_pyLowerChar
  rw [hcomp]
  rfl

theorem pyLower_reverse (s : Str) : (pyLower s).reverse = pyLower s.reverse :=
  (List.map_reverse _ _).symm

theorem pyStrip_pyLower (s : Str) : pyStrip (pyLower s) = pyLower (pyStrip s) := by
  rw [pyStrip, pyStrip, dropWhile_pyLower, pyLower_reverse, dropWhile_pyLower,
    pyLower_reverse]

theorem norm_title_idem (t : Str) : norm_title (norm_title t) = norm_title t := by
  rw [norm_title, norm_title, pyStrip_pyLower, pyStrip_idem, pyLower_idem]

/-- C7: `recommend(title, top_n)` equals `recommend(normalize(title), top_n)`:
the lookup key is `_norm_title(title)`, `_norm_title` is idempotent, and the
same `_norm_title` is (definitionally) the normalization used by
`build_title_map` when the Title Index is constructed, so lookup is
insensitive to leading/trailing whitespace and letter case. -/
theorem C7_recommend_normalization_insensitive (S : State) (title : Str) (top_n : Int) :
    tfidf_recommend_titles S title top_n =
      tfidf_recommend_titles S (norm_title title) top_n := by
  unfold tfidf_recommend_titles
  rw [norm_title_idem]

/-- C8: with the state passing of the service made explicit, one invocation
of the recommender returns the loaded state unchanged, and a second
invocation on the returned state yields the identical result sequence:
the query is deterministic and free of side effects on the Corpus, Title
Index and Feature Matrix. -/
theorem C8_recommend_deterministic_and_pure (S : State) (title : Str) (top_n : Int) :
    (recommend_call ((recommend_call S title top_n).2) title top_n).1 =
        (recommend_call S title top_n).1 ∧
      (recommend_call ((recommend_call S title top_n).2) title top_n).2 = S :=
  ⟨rfl, rfl⟩

/-! ### The Title Index: dict semantics and last-write-wins -/

theorem dictLookup_dictInsert_self (d : List (Str × Nat)) (k : Str) (v : Nat) :
    dictLookup (dictInsert d k v) k = some v := by
  induction d with
  | nil => simp [dictInsert, dictLookup]
  | cons kv rest ih =>
    obtain ⟨k', v'⟩ := kv
    by_cases h : k' = k
    · simp [dictInsert, h, dictLookup]
    · simp [dictInsert, h, dictLookup, ih]

theorem dictLookup_dictInsert_ne (d : List (Str × Nat)) (k k' : Str) (v : Nat)
    (h : k ≠ k') : dictLookup (dictInsert d k v) k' = dictLookup d k' := by
  induction d with
  | nil => simp [dictInsert, dictLookup, h]
  | cons kv rest ih =>
    obtain ⟨k0, v0⟩ := kv
    by_cases h0 : k0 = k
    · subst h0
      simp [dictInsert, dictLookup, h]
    · simp [dictInsert, h0, dictLookup, ih]

theorem dictLookup_foldl_insert (l : List (Str × Nat)) (d : List (Str × Nat))
    (k : Str) :
    dictLookup (l.foldl (fun d kv => dictInsert d (norm_title kv.1) kv.2) d) k =
      Option.or
        ((l.reverse.find? (fun kv => decide (norm_title kv.1 = k))).map Prod.snd)
        (dictLookup d k) := by
  induction l generalizing d with
  | nil => rfl
  | cons kv l ih =>
    rw [List.foldl_cons, ih, List.reverse_cons, List.find?_append]
    rcases hfind : l.reverse.find? (fun kv => decide (norm_title kv.1 = k))
      with _ | x
    · by_cases hk : norm_title kv.1 = k
      · subst hk
        simp [List.find?, hfind, dictLookup_dictInsert_self]
      · simp [List.find?, hfind, hk, dictLookup_dictInsert_ne d _ _ _ hk]
    · simp [hfind]

theorem build_title_map_lookup (indices : List (Str × Nat)) (k : Str) :
    dictLookup (build_title_map indices) k =
      (indices.reverse.find? (fun kv => decide (norm_title kv.1 = k))).map
        Prod.snd := by
  rw [build_title_map, dictLookup_foldl_insert,
    show dictLookup [] k = none from rfl]
  exact Option.or_none

/-- C9: during Title Index construction, duplicate-after-normalization titles
are silently overwritten, last write wins.  The corpus entry list is written
`pre ++ kv :: post` where `kv` is the last entry whose normalized title is
the shared key (no entry of `post` shares it) and some earlier entry `kv0`
shares it; the built index maps the key to `kv`'s row index.  The builder is
a total function, so no error is raised. -/
theorem C9_build_title_map_last_write_wins
    (pre post : List (Str × Nat)) (kv0 kv : Str × Nat)
    (_hshare : kv0 ∈ pre) (_hkey0 : norm_title kv0.1 = norm_title kv.1)
    (hlast : ∀ kv' ∈ post, norm_title kv'.1 ≠ norm_title kv.1) :
    dictLookup (build_title_map (pre ++ kv :: post)) (norm_title kv.1) =
      some kv.2 := by
  rw [build_title_map_lookup, List.reverse_append, List.reverse_cons,
    List.append_assoc, List.find?_append]
  have hnone : post.reverse.find?
      (fun kv' => decide (norm_title kv'.1 = norm_title kv.1)) = none := by
    rw [List.find?_eq_none]
    intro x hx
    simp only [decide_eq_true_eq]
    exact hlast x (List.mem_reverse.mp hx)
  rw [hnone]
  simp [List.find?]

/-! ### `np.argsort` returns a permutation of the row indices -/

theorem insertIdx_perm (key : Nat → ℚ) (i : Nat) (l : List Nat) :
    (insertIdx key i l).Perm (i :: l) := by
  induction l with
  | nil => exact List.Perm.refl _
  | cons j rest ih =>
    rw [insertIdx]
    by_cases h : key i < key j
    · rw [if_pos h]
    · rw [if_neg h]
      exact (ih.cons j).trans (List.Perm.swap i j rest)

theorem foldl_insertIdx_perm (key : Nat → ℚ) (l : List Nat) (acc : List Nat) :
    (l.foldl (fun a i => insertIdx key i a) acc).Perm (l ++ acc) := by
  induction l generalizing acc with
  | nil => exact List.Perm.refl _
  | cons i l ih =>
    rw [List.foldl_cons]
    exact ((ih (insertIdx key i acc)).trans
      (List.Perm.append_left l (insertIdx_perm key i acc))).trans List.perm_middle

theorem np_argsort_perm (v : List ℚ) :
    (np_argsort v).Perm (List.range v.length) := by
  rw [np_argsort]
  simpa using foldl_insertIdx_perm (fun j => v.getD j 0) (List.range v.length) []

theorem mem_np_argsort (v : List ℚ) (i : Nat) :
    i ∈ np_argsort v ↔ i < v.length := by
  rw [(np_argsort_perm v).mem_iff, List.mem_range]

/-! ### The output loop is a `take` of the filtered ranking -/

theorem recLoop_eq_take (S : State) (idx : Nat) (sc : List ℚ) (top_n : Int)
    (order : List Nat) :
    ∀ out : List (Str × ℚ), (out.length : Int) < top_n →
    recLoop S idx sc top_n order out =
      out ++ ((order.filter (fun i => decide (i ≠ idx))).map
        (fun i => (S.df_titles.getD i [], sc.getD i 0))).take
          (top_n.toNat - out.length) := by
  induction order with
  | nil =>
    intro out h
    simp [recLoop]
  | cons i rest ih =>
    intro out h
    by_cases hi : i = idx
    · rw [recLoop, if_pos hi, ih out h]
      simp [List.filter_cons, hi]
    · rw [recLoop, if_neg hi]
      simp only [List.length_append, List.length_cons, List.length_nil]
      by_cases hstop : ((out.length + 0 + 1 : Nat) : Int) ≥ top_n
      · rw [if_pos hstop]
        have htop : top_n.toNat - out.length = 1 := by omega
        rw [List.filter_cons, if_pos (by simpa using hi), List.map_cons, htop,
          List.take_succ_cons, List.take_zero]
      · rw [if_neg hstop]
        have hlt : (((out ++ [(S.df_titles.getD i [], sc.getD i 0)]).length : Nat) : Int)
            < top_n := by
          simp only [List.length_append, List.length_cons, List.length_nil]
          omega
        rw [ih _ hlt]
        have hsub : top_n.toNat - out.length =
            (top_n.toNat - (out ++ [(S.df_titles.getD i [], sc.getD i 0)]).length) + 1 := by
          simp only [List.length_append, List.length_cons, List.length_nil]
          omega
        rw [List.filter_cons, if_pos (by simpa using hi), List.map_cons, hsub,
          List.take_succ_cons, List.append_assoc, List.singleton_append]

theorem tfidf_known_eq_take (S : State) (title : Str) (idx : Nat) (top_n : Int)
    (hfound : dictLookup S.title_to_idx (norm_title title) = some idx)
    (hpos : 0 < top_n) :
    tfidf_recommend_titles S title top_n =
      (((np_argsort ((simScores S.tfidf_matrix idx).map (fun x => -x))).filter
          (fun i => decide (i ≠ idx))).map
        (fun i => (S.df_titles.getD i [],
          (simScores S.tfidf_matrix idx).getD i 0))).take top_n.toNat := by
  simp only [tfidf_recommend_titles, hfound]
  rw [recLoop_eq_take S idx _ top_n _ [] (by simpa using hpos)]
  simp

/-! ### Claim theorems: error handling and output shape -/

/-- C3: for every title whose normalized form is absent from the Title
Index, and every `top_n`, the recommender returns the empty sequence (the
early `return []` after the failed `.get`), raising no error. -/
theorem C3_unknown_title_returns_empty (S : State) (title : Str) (top_n : Int)
    (habsent : dictLookup S.title_to_idx (norm_title title) = none) :
    tfidf_recommend_titles S title top_n = [] := by
  simp [tfidf_recommend_titles, habsent]

theorem recLoop_nil_length_le_one (S : State) (idx : Nat) (sc : List ℚ)
    (top_n : Int) (h : top_n ≤ 1) :
    ∀ order : List Nat, (recLoop S idx sc top_n order []).length ≤ 1 := by
  intro order
  induction order with
  | nil => simp [recLoop]
  | cons i rest ih =>
    by_cases hi : i = idx
    · rw [recLoop, if_pos hi]
      exact ih
    · rw [recLoop, if_neg hi]
      simp only [List.nil_append, List.length_cons, List.length_nil]
      split
      · simp
      · rename_i hcond
        exfalso
        omega

theorem recLoop_nil_length_eq_one (S : State) (idx : Nat) (sc : List ℚ)
    (top_n : Int) (h : top_n ≤ 1) :
    ∀ order : List Nat, (∃ i ∈ order, i ≠ idx) →
      (recLoop S idx sc top_n order []).length = 1 := by
  intro order
  induction order with
  | nil =>
    rintro ⟨i, hi, -⟩
    simp at hi
  | cons i rest ih =>
    rintro ⟨j, hj, hjne⟩
    by_cases hi : i = idx
    · rw [recLoop, if_pos hi]
      apply ih
      refine ⟨j, ?_, hjne⟩
      rcases List.mem_cons.mp hj with h1 | h1
      · exact absurd (h1.trans hi) hjne
      · exact h1
    · rw [recLoop, if_neg hi]
      simp only [List.nil_append, List.length_cons, List.length_nil]
      split
      · simp
      · rename_i hcond
        exfalso
        omega

/-- C4 (amended): for every title and every `top_n ≤ 0` the recommender does
not fail with an invalid-argument error — neither `tfidf_recommend_titles`
nor the `recommend_tfidf` route validates `top_n`, and the function body has
no raise path — it returns a normal sequence of at most one pair (the
length check `len(out) >= top_n` only runs after the first append). -/
theorem C4_nonpositive_top_n_returns_normally (S : State) (title : Str)
    (top_n : Int) (h : top_n ≤ 0) :
    (tfidf_recommend_titles S title top_n).length ≤ 1 := by
  cases hfind : dictLookup S.title_to_idx (norm_title title) with
  | none => simp [tfidf_recommend_titles, hfind]
  | some idx =>
    simp only [tfidf_recommend_titles, hfind]
    exact recLoop_nil_length_le_one S idx _ top_n (by omega) _

/-- C10: for every title present in the Title Index, every `top_n ≤ 0`, and
an aligned state whose corpus has at least two rows, the recommender
returns exactly one pair: the `len(out) >= top_n` check runs only after an
element has been appended, so the first non-query row is emitted before the
loop stops. -/
theorem C10_nonpositive_top_n_returns_one (S : State) (title : Str)
    (idx : Nat) (top_n : Int)
    (hfound : dictLookup S.title_to_idx (norm_title title) = some idx)
    (h : top_n ≤ 0)
    (halign : S.tfidf_matrix.length = S.df_titles.length)
    (hrows : 2 ≤ S.df_titles.length) :
    (tfidf_recommend_titles S title top_n).length = 1 := by
  simp only [tfidf_recommend_titles, hfound]
  apply recLoop_nil_length_eq_one S idx _ top_n (by omega)
  have hlen : ((simScores S.tfidf_matrix idx).map (fun x => -x)).length =
      S.df_titles.length := by
    simp [simScores, halign]
  rcases eq_or_ne idx 0 with h0 | h0
  · exact ⟨1, (mem_np_argsort _ 1).mpr (by omega), by omega⟩
  · exact ⟨0, (mem_np_argsort _ 0).mpr (by omega), Ne.symm h0⟩

/-- C1 (amended): for every aligned state, title resolved by the Title
Index, and `top_n > 0`, the result has at most `top_n` pairs; and the query
ROW is what the loop excludes, so the query title is guaranteed absent from
the output only when no other corpus row's title normalizes to the query's
normalized title. -/
theorem C1_at_most_top_n_and_row_exclusion (S : State) (title : Str)
    (idx : Nat) (top_n : Int)
    (hfound : dictLookup S.title_to_idx (norm_title title) = some idx)
    (hpos : 0 < top_n)
    (halign : S.tfidf_matrix.length = S.df_titles.length)
    (huniq : ∀ i, i < S.df_titles.length → i ≠ idx →
      norm_title (S.df_titles.getD i []) ≠ norm_title title) :
    ((tfidf_recommend_titles S title top_n).length : Int) ≤ top_n ∧
      title ∉ (tfidf_recommend_titles S title top_n).map Prod.fst := by
  rw [tfidf_known_eq_take S title idx top_n hfound hpos]
  constructor
  · have h1 := List.length_take_le top_n.toNat
      (((np_argsort ((simScores S.tfidf_matrix idx).map (fun x => -x))).filter
        (fun i => decide (i ≠ idx))).map
          (fun i => (S.df_titles.getD i [],
            (simScores S.tfidf_matrix idx).getD i 0)))
    omega
  · intro hmem
    rw [List.mem_map] at hmem
    obtain ⟨p, hp, hfst⟩ := hmem
    have hp' := List.mem_of_mem_take hp
    rw [List.mem_map] at hp'
    obtain ⟨i, hi, hpi⟩ := hp'
    rw [List.mem_filter] at hi
    obtain ⟨hio, hine⟩ := hi
    have hlen : ((simScores S.tfidf_matrix idx).map (fun x => -x)).length =
        S.tfidf_matrix.length := by
      simp [simScores]
    have hlt : i < S.df_titles.length := by
      have hm := (mem_np_argsort _ i).mp hio
      omega
    have hne : i ≠ idx := by simpa using hine
    apply huniq i hlt hne
    rw [← hpi] at hfst
    rw [show S.df_titles.getD i [] = title from hfst]

/-- C6 (amended): prefix-stability holds for every pair `0 < n1 < n2`: the
result at `n1` is the first `n1` elements of the result at `n2` (both are
takes of the same filtered ranking; the restriction to positive `n1` is
forced by the `top_n ≤ 0` behaviour of C10). -/
theorem C6_result_take_stability (S : State) (title : Str) (n1 n2 : Int)
    (h1 : 0 < n1) (h12 : n1 < n2) :
    tfidf_recommend_titles S title n1 =
      (tfidf_recommend_titles S title n2).take n1.toNat := by
  cases hfind : dictLookup S.title_to_idx (norm_title title) with
  | none => simp [tfidf_recommend_titles, hfind]
  | some idx =>
    rw [tfidf_known_eq_take S title idx n1 hfind h1,
      tfidf_known_eq_take S title idx n2 hfind (by omega), List.take_take]
    congr 1
    omega

/-! ### Counterexamples and the startup-validation gap -/

/-- C1 counterexample: in the two-row state `Sdup` both corpus rows carry
the title `"a"`; the Title Index resolves `"a"` to row 1 (last write wins),
the loop excludes only row 1, and row 0 — whose title is the query title
itself — is returned.  So with the query title present in the Title Index
and `top_n = 5 > 0`, the query title appears among the returned titles,
refuting the claim as stated. -/
theorem C1_counterexample :
    dictLookup Sdup.title_to_idx (norm_title tA) = some 1 ∧ (0 : Int) < 5 ∧
      tA ∈ (tfidf_recommend_titles Sdup tA 5).map Prod.fst := by
  with_unfolding_all decide

/-- C4 counterexample: with `top_n = 0 ≤ 0` and the known title `"a"`, the
`recommend_tfidf` route returns the normal one-element sequence
`[("c", 1)]` — no invalid-argument error is raised anywhere, refuting the
claim as stated. -/
theorem C4_counterexample :
    (0 : Int) ≤ 0 ∧ recommend_tfidf S3 tA 0 = [(tC, 1)] := by
  with_unfolding_all decide

/-- C6 counterexample: for the integer pair `n1 = 0 < n2 = 2` and the known
title `"a"`, `recommend("a", 0)` is the one-element sequence `[("c", 1)]`
while the first `0` elements of `recommend("a", 2)` form the empty
sequence, refuting prefix-stability over all integer pairs `n1 < n2`. -/
theorem C6_counterexample :
    (0 : Int) < 2 ∧
      tfidf_recommend_titles S3 tA 0 ≠
        (tfidf_recommend_titles S3 tA 2).take (Int.toNat 0) := by
  with_unfolding_all decide

/-- C5: the startup path performs no consistency check.  On artifacts with
a three-row corpus and a two-row feature matrix, `lifespan` succeeds and
installs the mismatched state (3 corpus rows, 2 matrix rows) instead of
failing fast, contradicting the spec's requirement that initialization
fail on a row-count mismatch. -/
theorem C5_lifespan_loads_mismatched_state :
    (lifespan_load mismatchArtifacts).toOption.map
      (fun S => (S.df_titles.length, S.tfidf_matrix.length)) = some (3, 2) := by
  with_unfolding_all decide

/-! ### Witnesses -/

theorem C1_witness :
    ((tfidf_recommend_titles S3 tA 2).length : Int) ≤ 2 ∧
      tA ∉ (tfidf_recommend_titles S3 tA 2).map Prod.fst :=
  C1_at_most_top_n_and_row_exclusion S3 tA 0 2 (by decide) (by decide)
    (by decide) (by decide)

theorem C3_witness : tfidf_recommend_titles S3 [100] 7 = [] :=
  C3_unknown_title_returns_empty S3 [100] 7 (by decide)

theorem C4_witness : (tfidf_recommend_titles S3 tA (-2)).length ≤ 1 :=
  C4_nonpositive_top_n_returns_normally S3 tA (-2) (by decide)

theorem C6_witness :
    tfidf_recommend_titles S3 tA 1 =
      (tfidf_recommend_titles S3 tA 2).take (Int.toNat 1) :=
  C6_result_take_stability S3 tA 1 2 (by decide) (by decide)

theorem C9_witness :
    dictLookup (build_title_map ([(tA, 0)] ++ (tA, 1) :: []))
      (norm_title (tA, 1).1) = some (tA, 1).2 :=
  C9_build_title_map_last_write_wins [(tA, 0)] [] (tA, 0) (tA, 1)
    (by decide) (by decide) (by simp)

theorem C10_witness : (tfidf_recommend_titles S3 tA (-3)).length = 1 :=
  C10_nonpositive_top_n_returns_one S3 tA 0 (-3) (by decide) (by decide)
    (by decide) (by decide)
